import Mathlib

/-
Shallow embedding of src/video_api.py (a FastAPI service that stitches
uploaded video files with an external tool).

Modelling choices:
* The filesystem is explicit state: a list of directories and a list of
  (path, data) files.  os.path.join is string concatenation with "/".
* The external tool (ffmpeg) is an oracle in `Env`: for each invocation
  shape (Strategy A concat demuxer, Strategy B filter re-encode) the oracle
  yields either exit status 0 together with the bytes the tool writes to the
  output path, or a nonzero exit with diagnostic text on the error stream.
* tempfile.mkdtemp and uuid are oracles as well (`tempDirName`, `uniqueId`).
* Python exceptions are the `Exc` inductive; each function returns an
  `Except` value, the updated filesystem, and an event trace recording
  staging, manifest writes, tool invocations, reads and cleanup, so that
  ordering properties can be stated.
* shutil.rmtree(..., ignore_errors=True) is modelled as a total operation on
  the filesystem: with ignore_errors set, no deletion error can escape, so
  cleanup has no error channel in the model.
* print statements are ignored (the spec excludes logging from correctness).
-/

namespace VideoApi

/-- Content of a file in the modelled filesystem: raw bytes or text. -/
inductive FileData where
  | binary (bytes : List Nat)
  | text (s : String)
  deriving DecidableEq

/-- Byte size of a file, as os.path.getsize would report it. -/
def FileData.size : FileData → Nat
  | .binary b => b.length
  | .text s => s.utf8ByteSize

/-- An uploaded file part: its client-supplied filename and its bytes. -/
structure UploadedFile where
  filename : String
  content : List Nat
  deriving DecidableEq

/-- The modelled filesystem: existing directories and regular files. -/
structure FS where
  dirs : List String
  files : List (String × FileData)
  deriving DecidableEq

/-- open(p, "w"/"wb") followed by write: create or overwrite the file. -/
def FS.writeFile (fs : FS) (p : String) (d : FileData) : FS :=
  { fs with files := (p, d) :: fs.files.filter (fun x => !(x.1 == p)) }

/-- os.remove(p). -/
def FS.removeFile (fs : FS) (p : String) : FS :=
  { fs with files := fs.files.filter (fun x => !(x.1 == p)) }

/-- os.path.exists(p) for a regular file. -/
def FS.existsFile (fs : FS) (p : String) : Bool :=
  fs.files.any (fun x => x.1 == p)

/-- open(p, "rb") followed by read; total, with a default for the
    never-taken missing-file case (the code checks existence first). -/
def FS.readFile (fs : FS) (p : String) : FileData :=
  ((fs.files.find? (fun x => x.1 == p)).map (fun x => x.2)).getD (.binary [])

/-- os.path.getsize(p). -/
def FS.getsize (fs : FS) (p : String) : Nat :=
  (fs.readFile p).size

/-- tempfile.mkdtemp: register the fresh directory. -/
def FS.mkdir (fs : FS) (d : String) : FS :=
  { fs with dirs := d :: fs.dirs }

/-- shutil.rmtree(d, ignore_errors=True): drop the directory and every file
    whose path lies under it.  Total: no deletion error can escape. -/
def FS.rmtree (fs : FS) (d : String) : FS :=
  { dirs := fs.dirs.filter (fun x => !(x == d)),
    files := fs.files.filter (fun x => !((d ++ "/").data.isPrefixOf x.1.data)) }

/-- Outcome of one external-tool invocation: exit status 0 together with the
    bytes written to the requested output path, or a nonzero exit with the
    diagnostic text captured from the error stream. -/
inductive ToolOutcome where
  | ok (outputBytes : List Nat)
  | fail (stderr : String)
  deriving DecidableEq

/-- The ambient oracles of one request: os.path.abspath, the external tool
    in its two invocation shapes, the mkdtemp directory name and the
    uuid-derived request identifier. -/
structure Env where
  abspath : String → String
  toolA : List String → String → ToolOutcome
  toolB : List String → String → ToolOutcome
  tempDirName : String
  uniqueId : String

/-- Python exceptions that the /stitch handler distinguishes. -/
inductive Exc where
  | http (status : Nat) (detail : String)
  | calledProcess (stderr : String)
  | generic (msg : String)
  deriving DecidableEq

/-- Observable events of one request, in order of occurrence. -/
inductive Event where
  | stage (path : String)
  | invokeEngine (paths : List String)
  | writeManifest (path : String) (data : String)
  | toolA (paths : List String) (out : String) (success : Bool)
  | removeFile (path : String)
  | toolB (paths : List String) (out : String) (success : Bool)
  | readOutput (path : String)
  | destroyWorkspace (dir : String)
  deriving DecidableEq

/-- The filename-extension whitelist check of the handler:
    file.filename.endswith((".mp4", ".avi", ".mov", ".mkv", ".webm")),
    an exact, case-sensitive suffix match against any of the five. -/
def validExt (name : String) : Bool :=
  [".mp4", ".avi", ".mov", ".mkv", ".webm"].any (fun e => e.data.isSuffixOf name.data)

/-- The concat manifest text written by _concat_demuxer: one line per input,
    in order, each line file \x27<absolute path>\x27 followed by a newline. -/
def manifestText (env : Env) (video_paths : List String) : String :=
  String.join (video_paths.map (fun p => "file \x27" ++ env.abspath p ++ "\x27\n"))

/-- VideoStitcher._concat_filter: Strategy B, the filter-graph re-encode.
    One tool invocation; on exit 0 the tool has written the output file and
    the output path is returned; on nonzero exit the CalledProcessError is
    caught and re-raised as a plain Exception carrying the stderr text. -/
def concat_filter (env : Env) (video_paths : List String) (output_path : String) (fs : FS) :
    Except Exc String × FS × List Event :=
  match env.toolB video_paths output_path with
  | .ok b =>
      (.ok output_path, fs.writeFile output_path (.binary b),
       [.toolB video_paths output_path true])
  | .fail s =>
      (.error (.generic ("FFmpeg filter failed: " ++ s)), fs,
       [.toolB video_paths output_path false])

/-- VideoStitcher._concat_demuxer: Strategy A, the stream-copy concat.
    Writes the manifest next to the output, invokes the tool; on exit 0
    removes the manifest and returns the output path; on nonzero exit
    removes the manifest (if present) and falls back to _concat_filter with
    the same inputs and output path. -/
def concat_demuxer (env : Env) (video_paths : List String) (output_path : String) (fs : FS) :
    Except Exc String × FS × List Event :=
  let concat_file := output_path ++ "_concat_list.txt"
  let fs1 := fs.writeFile concat_file (.text (manifestText env video_paths))
  match env.toolA video_paths output_path with
  | .ok b =>
      (.ok output_path,
       (fs1.writeFile output_path (.binary b)).removeFile concat_file,
       [.writeManifest concat_file (manifestText env video_paths),
        .toolA video_paths output_path true,
        .removeFile concat_file])
  | .fail _ =>
      let cleaned : FS × List Event :=
        if fs1.existsFile concat_file then
          (fs1.removeFile concat_file, [.removeFile concat_file])
        else (fs1, [])
      let r := concat_filter env video_paths output_path cleaned.1
      (r.1, r.2.1,
       [.writeManifest concat_file (manifestText env video_paths),
        .toolA video_paths output_path false] ++ cleaned.2 ++ r.2.2)

/-- VideoStitcher.stitch_videos_ffmpeg: raise ValueError on an empty input
    list, dispatch to Strategy A when method is exactly "concat", otherwise
    directly to Strategy B. -/
def stitch_videos_ffmpeg (env : Env) (video_paths : List String) (output_path : String)
    (method : String) (fs : FS) : Except Exc String × FS × List Event :=
  if video_paths.isEmpty then
    (.error (.generic "No video paths provided"), fs, [])
  else if method == "concat" then
    concat_demuxer env video_paths output_path fs
  else
    concat_filter env video_paths output_path fs

/-- Python f-string {i:03d}: decimal digits, zero-padded to width at least 3. -/
def pad3 (i : Nat) : String :=
  let s := Nat.repr i
  if s.length < 3 then String.mk (List.replicate (3 - s.length) '0') ++ s else s

/-- The staging path of upload number i: os.path.join(dir, "input_{i:03d}_{filename}"). -/
def stagedPath (dir : String) (i : Nat) (filename : String) : String :=
  dir ++ "/input_" ++ pad3 i ++ "_" ++ filename

/-- Staging paths of a file list, numbering from i. -/
def stagedPathsFrom (dir : String) (i : Nat) : List UploadedFile → List String
  | [] => []
  | f :: rest => stagedPath dir i f.filename :: stagedPathsFrom dir (i + 1) rest

/-- Staging paths of the whole upload list, in upload order. -/
def stagedPaths (dir : String) (files : List UploadedFile) : List String :=
  stagedPathsFrom dir 0 files

/-- The validate-and-save loop of the /stitch handler: for each file in
    order, first check the extension whitelist (raising HTTPException 400 on
    failure), then write the bytes to the staging path and record it. -/
def stageLoop (dir : String) (i : Nat) (files : List UploadedFile) (fs : FS) :
    Except Exc (List String) × FS × List Event :=
  match files with
  | [] => (.ok [], fs, [])
  | f :: rest =>
      if validExt f.filename then
        let p := stagedPath dir i f.filename
        let fs1 := fs.writeFile p (.binary f.content)
        let r := stageLoop dir (i + 1) rest fs1
        match r.1 with
        | .ok ps => (.ok (p :: ps), r.2.1, .stage p :: r.2.2)
        | .error e => (.error e, r.2.1, .stage p :: r.2.2)
      else
        (.error (.http 400 ("Invalid file type: " ++ f.filename ++
           ". Supported: mp4, avi, mov, mkv, webm")), fs, [])

/-- Python str(e): Starlette renders an HTTPException as "status: detail";
    a plain Exception renders as its message.  The CalledProcessError case
    is unreachable from this embedding (the engine converts every tool
    failure before it escapes); it is kept to mirror the source. -/
def excStr : Exc → String
  | .http s d => toString s ++ ": " ++ d
  | .calledProcess s => "Command returned non-zero exit status (stderr: " ++ s ++ ")"
  | .generic m => m

/-- The outgoing 200 response of the /stitch handler: body bytes plus the
    media type and header values (all headers are strings in the source). -/
structure Resp where
  content : FileData
  mediaType : String
  contentDisposition : String
  videoCount : String
  outputSize : String
  methodUsed : String
  requestId : String
  deriving DecidableEq

/-- The two except clauses at the end of the /stitch handler: remove the
    workspace, then raise HTTPException 500 with the rendered message. -/
def handlerExcept (dir : String) (e : Exc) (fs : FS) (tr : List Event) :
    Except (Nat × String) Resp × FS × List Event :=
  match e with
  | .calledProcess s =>
      (.error (500, "Video processing failed: " ++ excStr (.calledProcess s)),
       fs.rmtree dir, tr ++ [.destroyWorkspace dir])
  | e' =>
      (.error (500, "Error: " ++ excStr e'),
       fs.rmtree dir, tr ++ [.destroyWorkspace dir])

/-- The output path chosen by the handler:
    os.path.join(temp_dir, "stitched_{unique_id}.mp4"). -/
def outputPathOf (env : Env) : String :=
  env.tempDirName ++ "/stitched_" ++ env.uniqueId ++ ".mp4"

/-- The POST /stitch handler stitch_videos: count check (before any
    workspace exists), workspace creation, the validate-and-save loop, the
    engine call, the output existence check, size and content reads, cleanup
    and response assembly, with the two except clauses around the try body. -/
def stitch_videos (env : Env) (files : List UploadedFile) (method : String) (fs : FS) :
    Except (Nat × String) Resp × FS × List Event :=
  if files.length < 2 then
    (.error (400, "At least 2 videos required for stitching. You uploaded " ++
       toString files.length ++ " file(s)."), fs, [])
  else
    let dir := env.tempDirName
    let fs0 := fs.mkdir dir
    let st := stageLoop dir 0 files fs0
    match st.1 with
    | .error e => handlerExcept dir e st.2.1 st.2.2
    | .ok video_paths =>
        let output_path := outputPathOf env
        let en := stitch_videos_ffmpeg env video_paths output_path method st.2.1
        let tr := st.2.2 ++ [.invokeEngine video_paths] ++ en.2.2
        match en.1 with
        | .error e => handlerExcept dir e en.2.1 tr
        | .ok result_path =>
            if en.2.1.existsFile result_path then
              let file_size := en.2.1.getsize result_path
              let video_content := en.2.1.readFile result_path
              (.ok { content := video_content,
                     mediaType := "video/mp4",
                     contentDisposition := "attachment; filename=stitched_video.mp4",
                     videoCount := toString files.length,
                     outputSize := toString file_size,
                     methodUsed := method,
                     requestId := env.uniqueId },
               en.2.1.rmtree dir,
               tr ++ [.readOutput result_path, .destroyWorkspace dir])
            else
              handlerExcept dir (.generic ("Output file was not created: " ++ result_path))
                en.2.1 tr

/-! ### Helper lemmas about the modelled filesystem -/

theorem FS.existsFile_writeFile_self (fs : FS) (p : String) (d : FileData) :
    (fs.writeFile p d).existsFile p = true := by
  simp [FS.writeFile, FS.existsFile]

theorem FS.existsFile_removeFile_self (fs : FS) (p : String) :
    (fs.removeFile p).existsFile p = false := by
  simp only [FS.removeFile, FS.existsFile]
  rw [List.any_eq_false]
  intro x hx
  have hmem := List.mem_filter.mp hx
  intro hbp
  rw [hbp] at hmem
  simp at hmem

theorem any_key_filter_ne (l : List (String × FileData)) (p q : String) (h : q ≠ p) :
    (l.filter (fun x => !(x.1 == p))).any (fun x => x.1 == q) =
      l.any (fun x => x.1 == q) := by
  induction l with
  | nil => rfl
  | cons a t ih =>
    by_cases hap : a.1 = p
    · have h1 : (a.1 == p) = true := beq_iff_eq.mpr hap
      have h2 : (a.1 == q) = false := beq_eq_false_iff_ne.mpr (by rw [hap]; exact fun hh => h hh.symm)
      simp [List.filter_cons, h1, h2, ih]
    · have h1 : (a.1 == p) = false := beq_eq_false_iff_ne.mpr hap
      simp only [List.filter_cons, h1, Bool.not_false, if_true, List.any_cons, ih]

theorem FS.existsFile_writeFile_ne (fs : FS) (p q : String) (d : FileData) (h : q ≠ p) :
    (fs.writeFile p d).existsFile q = fs.existsFile q := by
  simp only [FS.writeFile, FS.existsFile, List.any_cons]
  rw [show (p == q) = false from beq_eq_false_iff_ne.mpr (fun hh => h hh.symm)]
  rw [Bool.false_or, any_key_filter_ne _ _ _ h]

theorem FS.existsFile_removeFile_ne (fs : FS) (p q : String) (h : q ≠ p) :
    (fs.removeFile p).existsFile q = fs.existsFile q := by
  simp only [FS.removeFile, FS.existsFile]
  exact any_key_filter_ne _ _ _ h

theorem FS.rmtree_removes_under (fs : FS) (d p : String)
    (h : (d ++ "/").data.isPrefixOf p.data = true) :
    (fs.rmtree d).existsFile p = false := by
  simp only [FS.rmtree, FS.existsFile]
  rw [List.any_eq_false]
  intro x hx
  have hmem := List.mem_filter.mp hx
  intro hbp
  have hxp : x.1 = p := eq_of_beq hbp
  have := hmem.2
  rw [hxp, h] at this
  simp at this

theorem FS.rmtree_removes_dir (fs : FS) (d : String) :
    d ∉ (fs.rmtree d).dirs := by
  intro hmem
  have := (List.mem_filter.mp hmem).2
  simp at this

/-! ### Helper lemmas about strings -/

theorem append_head_ne (pre x y s : String) (cx cy : Char) (tx ty : List Char)
    (hx : x.data = cx :: tx) (hy : y.data = cy :: ty) (hne : cx ≠ cy) :
    pre ++ (x ++ s) ≠ pre ++ y := by
  intro h
  have hd := congrArg String.data h
  rw [String.data_append, String.data_append, String.data_append] at hd
  have h2 := List.append_cancel_left hd
  rw [hx, hy, List.cons_append] at h2
  injection h2 with h3 _
  exact hne h3

/-! ### Behaviour of the staging loop -/

theorem stageLoop_ok_shape (dir : String) (files : List UploadedFile) :
    ∀ (i : Nat) (fs : FS) (ps : List String),
      (stageLoop dir i files fs).1 = .ok ps → ps = stagedPathsFrom dir i files := by
  induction files with
  | nil => intro i fs ps h; simp only [stageLoop] at h; cases h; rfl
  | cons f rest ih =>
    intro i fs ps h
    simp only [stageLoop] at h
    by_cases hv : validExt f.filename
    · rw [if_pos hv] at h
      rcases hr : (stageLoop dir (i + 1) rest (fs.writeFile (stagedPath dir i f.filename)
          (.binary f.content))).1 with e | ps'
      · rw [hr] at h; cases h
      · rw [hr] at h
        cases h
        simp only [stagedPathsFrom]
        rw [ih (i + 1) _ ps' hr]
    · rw [if_neg hv] at h; cases h

theorem stageLoop_ok_of_valid (dir : String) (files : List UploadedFile) :
    ∀ (i : Nat) (fs : FS), (∀ f ∈ files, validExt f.filename = true) →
      (stageLoop dir i files fs).1 = .ok (stagedPathsFrom dir i files) := by
  induction files with
  | nil => intro i fs _; rfl
  | cons f rest ih =>
    intro i fs hval
    have hv : validExt f.filename = true := hval f (List.mem_cons_self f rest)
    simp only [stageLoop, hv, if_true]
    rw [ih (i + 1) _ (fun g hg => hval g (List.mem_cons_of_mem f hg))]
    rfl

theorem stageLoop_error_of_invalid (dir : String) (files : List UploadedFile) :
    ∀ (i : Nat) (fs : FS), (∃ f ∈ files, validExt f.filename = false) →
      ∃ name, (stageLoop dir i files fs).1 =
        .error (.http 400 ("Invalid file type: " ++ name ++
          ". Supported: mp4, avi, mov, mkv, webm")) := by
  induction files with
  | nil => intro i fs h; rcases h with ⟨f, hf, _⟩; cases hf
  | cons f rest ih =>
    intro i fs hbad
    by_cases hv : validExt f.filename
    · have hrest : ∃ g ∈ rest, validExt g.filename = false := by
        rcases hbad with ⟨g, hg, hgv⟩
        rcases List.mem_cons.mp hg with h1 | h1
        · rw [h1] at hgv; rw [hgv] at hv; cases hv
        · exact ⟨g, h1, hgv⟩
      rcases ih (i + 1) (fs.writeFile (stagedPath dir i f.filename) (.binary f.content))
        hrest with ⟨name, hname⟩
      refine ⟨name, ?_⟩
      simp only [stageLoop, hv, if_true]
      rw [hname]
    · refine ⟨f.filename, ?_⟩
      simp only [stageLoop]
      rw [if_neg hv]

theorem stageLoop_trace_stage_only (dir : String) (files : List UploadedFile) :
    ∀ (i : Nat) (fs : FS) (e : Event), e ∈ (stageLoop dir i files fs).2.2 →
      ∃ p, e = .stage p := by
  induction files with
  | nil => intro i fs e h; cases h
  | cons f rest ih =>
    intro i fs e h
    by_cases hv : validExt f.filename
    · simp only [stageLoop, hv, if_true] at h
      rcases hr : (stageLoop dir (i + 1) rest (fs.writeFile (stagedPath dir i f.filename)
          (.binary f.content))).1 with e' | ps'
      · rw [hr] at h
        simp only [List.mem_cons] at h
        rcases h with h | h
        · exact ⟨stagedPath dir i f.filename, h⟩
        · exact ih (i + 1) _ e h
      · rw [hr] at h
        simp only [List.mem_cons] at h
        rcases h with h | h
        · exact ⟨stagedPath dir i f.filename, h⟩
        · exact ih (i + 1) _ e h
    · simp only [stageLoop, eq_false_of_ne_true hv, if_false] at h
      cases h

theorem stagedPathsFrom_length (dir : String) (files : List UploadedFile) :
    ∀ i : Nat, (stagedPathsFrom dir i files).length = files.length := by
  induction files with
  | nil => intro i; rfl
  | cons f rest ih => intro i; simp only [stagedPathsFrom, List.length_cons, ih]

/-! ### Behaviour of the except clauses -/

theorem handlerExcept_fs (dir : String) (e : Exc) (fs : FS) (tr : List Event) :
    (handlerExcept dir e fs tr).2.1 = fs.rmtree dir := by
  cases e <;> rfl

theorem handlerExcept_trace (dir : String) (e : Exc) (fs : FS) (tr : List Event) :
    (handlerExcept dir e fs tr).2.2 = tr ++ [.destroyWorkspace dir] := by
  cases e <;> rfl

theorem handlerExcept_is_error (dir : String) (e : Exc) (fs : FS) (tr : List Event) :
    ∃ c, (handlerExcept dir e fs tr).1 = .error c := by
  cases e <;> exact ⟨_, rfl⟩

/-! ### Equations for the stitching engine -/

theorem concat_filter_okB (env : Env) (ps : List String) (op : String) (fs : FS)
    (b : List Nat) (h : env.toolB ps op = .ok b) :
    concat_filter env ps op fs =
      (.ok op, fs.writeFile op (.binary b), [.toolB ps op true]) := by
  simp only [concat_filter, h]

theorem concat_filter_failB (env : Env) (ps : List String) (op : String) (fs : FS)
    (s : String) (h : env.toolB ps op = .fail s) :
    concat_filter env ps op fs =
      (.error (.generic ("FFmpeg filter failed: " ++ s)), fs, [.toolB ps op false]) := by
  simp only [concat_filter, h]

theorem concat_demuxer_okA (env : Env) (ps : List String) (op : String) (fs : FS)
    (b : List Nat) (h : env.toolA ps op = .ok b) :
    concat_demuxer env ps op fs =
      (.ok op,
       ((fs.writeFile (op ++ "_concat_list.txt") (.text (manifestText env ps))).writeFile op
          (.binary b)).removeFile (op ++ "_concat_list.txt"),
       [.writeManifest (op ++ "_concat_list.txt") (manifestText env ps),
        .toolA ps op true, .removeFile (op ++ "_concat_list.txt")]) := by
  simp only [concat_demuxer, h]

theorem concat_demuxer_failA (env : Env) (ps : List String) (op : String) (fs : FS)
    (s : String) (h : env.toolA ps op = .fail s) :
    concat_demuxer env ps op fs =
      ((concat_filter env ps op ((fs.writeFile (op ++ "_concat_list.txt")
          (.text (manifestText env ps))).removeFile (op ++ "_concat_list.txt"))).1,
       (concat_filter env ps op ((fs.writeFile (op ++ "_concat_list.txt")
          (.text (manifestText env ps))).removeFile (op ++ "_concat_list.txt"))).2.1,
       [.writeManifest (op ++ "_concat_list.txt") (manifestText env ps),
        .toolA ps op false, .removeFile (op ++ "_concat_list.txt")] ++
         (concat_filter env ps op ((fs.writeFile (op ++ "_concat_list.txt")
            (.text (manifestText env ps))).removeFile (op ++ "_concat_list.txt"))).2.2) := by
  simp only [concat_demuxer, h, FS.existsFile_writeFile_self, if_true]
  simp

theorem isEmpty_false_of_ne_nil {α : Type} {l : List α} (h : l ≠ []) :
    l.isEmpty = false := by
  cases l with
  | nil => exact absurd rfl h
  | cons a t => rfl

theorem engine_concat (env : Env) (ps : List String) (op : String) (fs : FS)
    (hne : ps ≠ []) :
    stitch_videos_ffmpeg env ps op "concat" fs = concat_demuxer env ps op fs := by
  simp [stitch_videos_ffmpeg, isEmpty_false_of_ne_nil hne]

theorem engine_other (env : Env) (ps : List String) (op m : String) (fs : FS)
    (hne : ps ≠ []) (hm : m ≠ "concat") :
    stitch_videos_ffmpeg env ps op m fs = concat_filter env ps op fs := by
  simp [stitch_videos_ffmpeg, isEmpty_false_of_ne_nil hne, beq_eq_false_iff_ne.mpr hm]

theorem engine_ok_shape (env : Env) (ps : List String) (op m : String) (fs : FS)
    (r : String) (h : (stitch_videos_ffmpeg env ps op m fs).1 = .ok r) : r = op := by
  simp only [stitch_videos_ffmpeg] at h
  by_cases he : ps.isEmpty = true
  · rw [if_pos he] at h; cases h
  · rw [if_neg he] at h
    by_cases hm : (m == "concat") = true
    · rw [if_pos hm] at h
      rcases hA : env.toolA ps op with b | s
      · rw [concat_demuxer_okA env ps op fs b hA] at h; cases h; rfl
      · rw [concat_demuxer_failA env ps op fs s hA] at h
        rcases hB : env.toolB ps op with b | s2
        · rw [concat_filter_okB env ps op _ b hB] at h; cases h; rfl
        · rw [concat_filter_failB env ps op _ s2 hB] at h; cases h
    · rw [if_neg hm] at h
      rcases hB : env.toolB ps op with b | s2
      · rw [concat_filter_okB env ps op _ b hB] at h; cases h; rfl
      · rw [concat_filter_failB env ps op _ s2 hB] at h; cases h

theorem engine_error_shape (env : Env) (ps : List String) (op m : String) (fs : FS)
    (e : Exc) (hne : ps ≠ [])
    (h : (stitch_videos_ffmpeg env ps op m fs).1 = .error e) :
    ∃ s, e = .generic ("FFmpeg filter failed: " ++ s) := by
  simp only [stitch_videos_ffmpeg, isEmpty_false_of_ne_nil hne] at h
  rw [if_neg (by simp)] at h
  by_cases hm : (m == "concat") = true
  · rw [if_pos hm] at h
    rcases hA : env.toolA ps op with b | s
    · rw [concat_demuxer_okA env ps op fs b hA] at h; cases h
    · rw [concat_demuxer_failA env ps op fs s hA] at h
      rcases hB : env.toolB ps op with b | s2
      · rw [concat_filter_okB env ps op _ b hB] at h; cases h
      · rw [concat_filter_failB env ps op _ s2 hB] at h; cases h; exact ⟨s2, rfl⟩
  · rw [if_neg hm] at h
    rcases hB : env.toolB ps op with b | s2
    · rw [concat_filter_okB env ps op _ b hB] at h; cases h
    · rw [concat_filter_failB env ps op _ s2 hB] at h; cases h; exact ⟨s2, rfl⟩

/-- Events that only the stitching engine emits. -/
def Event.isEngineEvent : Event → Bool
  | .writeManifest _ _ => true
  | .toolA _ _ _ => true
  | .removeFile _ => true
  | .toolB _ _ _ => true
  | _ => false

theorem engine_trace_events (env : Env) (ps : List String) (op m : String) (fs : FS) :
    ∀ e ∈ (stitch_videos_ffmpeg env ps op m fs).2.2, e.isEngineEvent = true := by
  intro e he
  simp only [stitch_videos_ffmpeg] at he
  by_cases hemp : ps.isEmpty = true
  · rw [if_pos hemp] at he; cases he
  · rw [if_neg hemp] at he
    by_cases hm : (m == "concat") = true
    · rw [if_pos hm] at he
      rcases hA : env.toolA ps op with b | s
      · rw [concat_demuxer_okA env ps op fs b hA] at he
        simp only [List.mem_cons, List.not_mem_nil, or_false] at he
        rcases he with rfl | rfl | rfl <;> rfl
      · rw [concat_demuxer_failA env ps op fs s hA] at he
        rcases hB : env.toolB ps op with b | s2
        · rw [concat_filter_okB env ps op _ b hB] at he
          simp only [List.cons_append, List.nil_append, List.mem_cons, List.not_mem_nil,
            or_false] at he
          rcases he with rfl | rfl | rfl | rfl <;> rfl
        · rw [concat_filter_failB env ps op _ s2 hB] at he
          simp only [List.cons_append, List.nil_append, List.mem_cons, List.not_mem_nil,
            or_false] at he
          rcases he with rfl | rfl | rfl | rfl <;> rfl
    · rw [if_neg hm] at he
      rcases hB : env.toolB ps op with b | s2
      · rw [concat_filter_okB env ps op _ b hB] at he
        simp only [List.mem_cons, List.not_mem_nil, or_false] at he
        rcases he with rfl <;> rfl
      · rw [concat_filter_failB env ps op _ s2 hB] at he
        simp only [List.mem_cons, List.not_mem_nil, or_false] at he
        rcases he with rfl <;> rfl

theorem concat_file_ne_out (op : String) : op ++ "_concat_list.txt" ≠ op := by
  intro h
  have h1 := congrArg String.length h
  rw [String.length_append] at h1
  rw [show ("_concat_list.txt" : String).length = 16 from rfl] at h1
  omega

/-! ### Claims C5, C7, C9 about the stitching engine -/

/-- Claim C5: for every non-empty input list with method "concat", the engine
    attempts Strategy A (the stream-copy invocation); if that invocation
    exits nonzero it invokes Strategy B with the same input list and the same
    output path, and no error is surfaced to the caller unless Strategy B
    also fails: on Strategy B success the output path is returned, and only
    on Strategy B failure is an error produced. -/
theorem concat_falls_back_to_B (env : Env) (ps : List String) (op : String) (fs : FS)
    (hne : ps ≠ []) :
    (∃ ok1, Event.toolA ps op ok1 ∈ (stitch_videos_ffmpeg env ps op "concat" fs).2.2) ∧
    ∀ s, env.toolA ps op = .fail s →
      (∃ ok2, Event.toolB ps op ok2 ∈ (stitch_videos_ffmpeg env ps op "concat" fs).2.2) ∧
      (∀ b, env.toolB ps op = .ok b →
        (stitch_videos_ffmpeg env ps op "concat" fs).1 = .ok op) ∧
      (∀ s2, env.toolB ps op = .fail s2 →
        (stitch_videos_ffmpeg env ps op "concat" fs).1 =
          .error (.generic ("FFmpeg filter failed: " ++ s2))) := by
  rw [engine_concat env ps op fs hne]
  rcases hA : env.toolA ps op with b | s
  · rw [concat_demuxer_okA env ps op fs b hA]
    refine ⟨⟨true, by simp⟩, ?_⟩
    intro s hs
    cases hs
  · rw [concat_demuxer_failA env ps op fs s hA]
    refine ⟨⟨false, by simp⟩, ?_⟩
    intro s' _
    rcases hB : env.toolB ps op with b | s2
    · rw [concat_filter_okB env ps op _ b hB]
      refine ⟨⟨true, by simp⟩, fun b' _ => by simp, fun s2' hs2' => ?_⟩
      cases hs2'
    · rw [concat_filter_failB env ps op _ s2 hB]
      refine ⟨⟨false, by simp⟩, fun b' hb' => ?_, fun s2' hs2' => ?_⟩
      · cases hb'
      · cases hs2'
        simp

/-- Claim C5 witness at a concrete environment where Strategy A fails and
    Strategy B succeeds. -/
theorem concat_falls_back_to_B_witness :
    (["/a.mp4", "/b.mp4"] : List String) ≠ [] ∧
    (stitch_videos_ffmpeg
        ⟨id, fun _ _ => .fail "eA", fun _ _ => .ok [5], "/t", "id01"⟩
        ["/a.mp4", "/b.mp4"] "/t/out.mp4" "concat" ⟨[], []⟩).1 = .ok "/t/out.mp4" := by
  refine ⟨by simp, ?_⟩
  exact ((concat_falls_back_to_B
      ⟨id, fun _ _ => .fail "eA", fun _ _ => .ok [5], "/t", "id01"⟩
      ["/a.mp4", "/b.mp4"] "/t/out.mp4" ⟨[], []⟩ (by simp)).2 "eA" rfl).2.1 [5] rfl

/-- Claim C7: for every non-empty input list, Strategy A writes the manifest
    at <outputPath>_concat_list.txt whose text is, in input order, one line
    per input of exactly the form file \x27<absolute path>\x27; and the
    manifest is deleted both when the tool exits 0 (before the output path is
    returned, and absent from the final filesystem) and when it exits nonzero
    (the deletion event precedes the Strategy B invocation, and the manifest
    is absent from the final filesystem). -/
theorem demuxer_manifest_lifecycle (env : Env) (ps : List String) (op : String) (fs : FS)
    (hne : ps ≠ []) :
    (∀ b, env.toolA ps op = .ok b →
      (concat_demuxer env ps op fs).2.2 =
        [.writeManifest (op ++ "_concat_list.txt")
           (String.join (ps.map (fun p => "file \x27" ++ env.abspath p ++ "\x27\n"))),
         .toolA ps op true,
         .removeFile (op ++ "_concat_list.txt")] ∧
      (concat_demuxer env ps op fs).1 = .ok op ∧
      (concat_demuxer env ps op fs).2.1.existsFile (op ++ "_concat_list.txt") = false) ∧
    (∀ s, env.toolA ps op = .fail s →
      ∃ tb, (concat_demuxer env ps op fs).2.2 =
        [.writeManifest (op ++ "_concat_list.txt")
           (String.join (ps.map (fun p => "file \x27" ++ env.abspath p ++ "\x27\n"))),
         .toolA ps op false,
         .removeFile (op ++ "_concat_list.txt"),
         .toolB ps op tb] ∧
      (concat_demuxer env ps op fs).2.1.existsFile (op ++ "_concat_list.txt") = false) := by
  constructor
  · intro b hA
    rw [concat_demuxer_okA env ps op fs b hA]
    exact ⟨rfl, rfl, FS.existsFile_removeFile_self _ _⟩
  · intro s hA
    rw [concat_demuxer_failA env ps op fs s hA]
    rcases hB : env.toolB ps op with b | s2
    · rw [concat_filter_okB env ps op _ b hB]
      refine ⟨true, by simp [manifestText], ?_⟩
      rw [FS.existsFile_writeFile_ne _ _ _ _ (concat_file_ne_out op)]
      exact FS.existsFile_removeFile_self _ _
    · rw [concat_filter_failB env ps op _ s2 hB]
      refine ⟨false, by simp [manifestText], ?_⟩
      exact FS.existsFile_removeFile_self _ _

/-- Claim C7 witness at a concrete environment where Strategy A succeeds. -/
theorem demuxer_manifest_lifecycle_witness :
    (["/a.mp4"] : List String) ≠ [] ∧
    (concat_demuxer ⟨id, fun _ _ => .ok [1], fun _ _ => .ok [2], "/t", "id01"⟩
        ["/a.mp4"] "/t/out.mp4" ⟨[], []⟩).1 = .ok "/t/out.mp4" := by
  refine ⟨by simp, ?_⟩
  exact ((demuxer_manifest_lifecycle
    ⟨id, fun _ _ => .ok [1], fun _ _ => .ok [2], "/t", "id01"⟩
    ["/a.mp4"] "/t/out.mp4" ⟨[], []⟩ (by simp)).1 [1] rfl).2.1

/-- Claim C9: for every non-empty input list and every method other than the
    exact string "concat", the engine behaves exactly as Strategy B invoked
    directly, and its trace contains no Strategy A invocation and no manifest
    write. -/
theorem non_concat_runs_B_directly (env : Env) (ps : List String) (op m : String)
    (fs : FS) (hne : ps ≠ []) (hm : m ≠ "concat") :
    stitch_videos_ffmpeg env ps op m fs = concat_filter env ps op fs ∧
    ∀ e ∈ (stitch_videos_ffmpeg env ps op m fs).2.2,
      (∀ qs q b, e ≠ Event.toolA qs q b) ∧ ∀ q dd, e ≠ Event.writeManifest q dd := by
  refine ⟨engine_other env ps op m fs hne hm, ?_⟩
  intro e he
  rw [engine_other env ps op m fs hne hm] at he
  rcases hB : env.toolB ps op with b | s2
  · rw [concat_filter_okB env ps op _ b hB] at he
    simp only [List.mem_cons, List.not_mem_nil, or_false] at he
    subst he
    exact ⟨fun qs q b' => by simp, fun q dd => by simp⟩
  · rw [concat_filter_failB env ps op _ s2 hB] at he
    simp only [List.mem_cons, List.not_mem_nil, or_false] at he
    subst he
    exact ⟨fun qs q b' => by simp, fun q dd => by simp⟩

/-- Claim C9 witness at a concrete environment with method "filter". -/
theorem non_concat_runs_B_directly_witness :
    (["/a.mp4"] : List String) ≠ [] ∧ ("filter" : String) ≠ "concat" ∧
    stitch_videos_ffmpeg ⟨id, fun _ _ => .ok [1], fun _ _ => .ok [2], "/t", "id01"⟩
        ["/a.mp4"] "/t/out.mp4" "filter" ⟨[], []⟩ =
      concat_filter ⟨id, fun _ _ => .ok [1], fun _ _ => .ok [2], "/t", "id01"⟩
        ["/a.mp4"] "/t/out.mp4" ⟨[], []⟩ := by
  refine ⟨by simp, by simp, ?_⟩
  exact (non_concat_runs_B_directly
    ⟨id, fun _ _ => .ok [1], fun _ _ => .ok [2], "/t", "id01"⟩
    ["/a.mp4"] "/t/out.mp4" "filter" ⟨[], []⟩ (by simp) (by simp)).1

/-! ### Handler-level supporting lemmas -/

theorem stageLoop_error_shape (dir : String) (files : List UploadedFile) :
    ∀ (i : Nat) (fs : FS) (e : Exc), (stageLoop dir i files fs).1 = .error e →
      ∃ name, e = .http 400 ("Invalid file type: " ++ name ++
        ". Supported: mp4, avi, mov, mkv, webm") := by
  induction files with
  | nil => intro i fs e h; cases h
  | cons f rest ih =>
    intro i fs e h
    by_cases hv : validExt f.filename = true
    · simp only [stageLoop, hv, if_true] at h
      rcases hr : (stageLoop dir (i + 1) rest (fs.writeFile (stagedPath dir i f.filename)
          (.binary f.content))).1 with e' | ps'
      · rw [hr] at h
        cases h
        exact ih (i + 1) _ e hr
      · rw [hr] at h
        cases h
    · simp only [stageLoop] at h
      rw [if_neg hv] at h
      cases h
      exact ⟨f.filename, rfl⟩

/-- On every path of the handler that creates a workspace, the final
    filesystem is an rmtree of the workspace directory. -/
theorem stitch_final_fs (env : Env) (files : List UploadedFile) (method : String)
    (fs : FS) (h2 : 2 ≤ files.length) :
    ∃ fs', (stitch_videos env files method fs).2.1 = FS.rmtree fs' env.tempDirName := by
  have hlt : ¬ files.length < 2 := Nat.not_lt.mpr h2
  unfold stitch_videos
  rw [if_neg hlt]
  dsimp only
  rcases hst : (stageLoop env.tempDirName 0 files (fs.mkdir env.tempDirName)).1 with e | vp
  · simp only [hst]
    exact ⟨_, handlerExcept_fs _ _ _ _⟩
  · simp only [hst]
    rcases hen : (stitch_videos_ffmpeg env vp (outputPathOf env) method
        (stageLoop env.tempDirName 0 files (fs.mkdir env.tempDirName)).2.1).1 with e | rp
    · simp only [hen]
      exact ⟨_, handlerExcept_fs _ _ _ _⟩
    · simp only [hen]
      by_cases hex : (stitch_videos_ffmpeg env vp (outputPathOf env) method
          (stageLoop env.tempDirName 0 files (fs.mkdir env.tempDirName)).2.1).2.1.existsFile
            rp = true
      · rw [if_pos hex]
        exact ⟨_, rfl⟩
      · rw [if_neg hex]
        exact ⟨_, handlerExcept_fs _ _ _ _⟩

/-- Within a handler trace of the shape staging events, the engine call
    marker, the engine trace, and a tail of read/cleanup events, the only
    invokeEngine event is the marker itself. -/
theorem invoke_mem_shape (env : Env) (dir : String) (files : List UploadedFile) (fs0 : FS)
    (vp : List String) (op m : String) (fsE : FS) (rest : List Event)
    (hrest : ∀ e ∈ rest, ∀ qs, e ≠ Event.invokeEngine qs)
    (ps : List String)
    (hmem : Event.invokeEngine ps ∈
      (stageLoop dir 0 files fs0).2.2 ++ [Event.invokeEngine vp] ++
        (stitch_videos_ffmpeg env vp op m fsE).2.2 ++ rest) :
    ps = vp := by
  simp only [List.mem_append, List.mem_cons, List.not_mem_nil, or_false] at hmem
  rcases hmem with ((h | h) | h) | h
  · obtain ⟨p, hp⟩ := stageLoop_trace_stage_only dir files 0 fs0 _ h
    cases hp
  · injection h
  · have := engine_trace_events env vp op m fsE _ h
    simp [Event.isEngineEvent] at this
  · exact absurd rfl (hrest _ h ps)

theorem handlerExcept_fst_http (dir : String) (st : Nat) (dt : String) (fs : FS)
    (tr : List Event) :
    (handlerExcept dir (.http st dt) fs tr).1 =
      .error (500, "Error: " ++ (toString st ++ ": " ++ dt)) := rfl

theorem handlerExcept_fst_generic (dir : String) (m : String) (fs : FS) (tr : List Event) :
    (handlerExcept dir (.generic m) fs tr).1 = .error (500, "Error: " ++ m) := rfl

/-! ### Concrete fixtures used by witnesses and counterexamples -/

/-- A request environment whose Strategy A invocation succeeds. -/
def envOkA : Env :=
  { abspath := id, toolA := fun _ _ => .ok [1, 2, 3], toolB := fun _ _ => .ok [9],
    tempDirName := "/tmp/ws", uniqueId := "abcd1234" }

/-- A request environment where Strategy A fails and Strategy B succeeds. -/
def envFallback : Env :=
  { abspath := id, toolA := fun _ _ => .fail "codec mismatch",
    toolB := fun _ _ => .ok [7, 7], tempDirName := "/tmp/ws", uniqueId := "abcd1234" }

/-- A request environment where both strategies fail. -/
def envBFail : Env :=
  { abspath := id, toolA := fun _ _ => .fail "eA", toolB := fun _ _ => .fail "eB",
    tempDirName := "/tmp/ws", uniqueId := "abcd1234" }

/-- Two uploads with whitelisted extensions. -/
def filesOk : List UploadedFile := [⟨"a.mp4", [0]⟩, ⟨"b.mov", [1]⟩]

/-- Two uploads where the second filename extension is not whitelisted. -/
def filesBad : List UploadedFile := [⟨"a.mp4", [0]⟩, ⟨"b.txt", [1]⟩]

/-- The staging paths of filesOk under the fixture workspace. -/
def stagedOk : List String := ["/tmp/ws/input_000_a.mp4", "/tmp/ws/input_001_b.mov"]

/-- The output path of the fixture request. -/
def outOk : String := "/tmp/ws/stitched_abcd1234.mp4"

/-- The successful response of envOkA on filesOk with method "concat". -/
def respOkA : Resp :=
  { content := .binary [1, 2, 3], mediaType := "video/mp4",
    contentDisposition := "attachment; filename=stitched_video.mp4",
    videoCount := "2", outputSize := "3", methodUsed := "concat",
    requestId := "abcd1234" }

/-- The successful response of envFallback on filesOk with method "concat". -/
def respFallback : Resp :=
  { content := .binary [7, 7], mediaType := "video/mp4",
    contentDisposition := "attachment; filename=stitched_video.mp4",
    videoCount := "2", outputSize := "2", methodUsed := "concat",
    requestId := "abcd1234" }

/-! ### Claims C1 to C4, C6, C8, C10 about the /stitch handler -/

/-- Claim C1: for every /stitch request that creates a workspace (the count
    check passed, so at least 2 files), the workspace directory and every
    file under it are absent from the final filesystem on every code path:
    success, validation failure after creation, tool failure, and unexpected
    error.  Cleanup is modelled error-free because the source passes
    ignore_errors=True to shutil.rmtree, so no deletion error can surface or
    replace the primary result. -/
theorem stitch_cleanup_every_path (env : Env) (files : List UploadedFile) (method : String)
    (fs : FS) (h2 : 2 ≤ files.length) :
    env.tempDirName ∉ (stitch_videos env files method fs).2.1.dirs ∧
    ∀ p : String, (env.tempDirName ++ "/").data.isPrefixOf p.data = true →
      (stitch_videos env files method fs).2.1.existsFile p = false := by
  obtain ⟨fs', hfs⟩ := stitch_final_fs env files method fs h2
  rw [hfs]
  exact ⟨FS.rmtree_removes_dir _ _, fun p hp => FS.rmtree_removes_under _ _ _ hp⟩

/-- Claim C1 witness at a concrete successful request. -/
theorem stitch_cleanup_every_path_witness :
    2 ≤ filesOk.length ∧
    envOkA.tempDirName ∉ (stitch_videos envOkA filesOk "concat" ⟨[], []⟩).2.1.dirs ∧
    (stitch_videos envOkA filesOk "concat" ⟨[], []⟩).2.1.existsFile
      "/tmp/ws/input_000_a.mp4" = false := by
  refine ⟨by decide, ?_, ?_⟩
  · exact (stitch_cleanup_every_path envOkA filesOk "concat" ⟨[], []⟩ (by decide)).1
  · exact (stitch_cleanup_every_path envOkA filesOk "concat" ⟨[], []⟩ (by decide)).2
      "/tmp/ws/input_000_a.mp4" (by decide)

/-- Claim C2 (code bug): with 2 uploads whose second filename has a
    non-whitelisted extension, the handler returns status 500, not the
    claimed 400: the HTTPException(400) raised inside the try block is
    caught by the blanket except Exception clause and re-raised as a 500
    whose detail wraps the original message.  The fewer-than-2-files check,
    raised before the try block, does return 400 as claimed. -/
theorem invalid_ext_yields_500 :
    (stitch_videos envOkA filesBad "concat" ⟨[], []⟩).1 =
      .error (500,
        "Error: 400: Invalid file type: b.txt. Supported: mp4, avi, mov, mkv, webm") ∧
    (stitch_videos envOkA [⟨"a.mp4", [0]⟩] "concat" ⟨[], []⟩).1 =
      .error (400, "At least 2 videos required for stitching. You uploaded 1 file(s).") :=
  ⟨rfl, rfl⟩

/-- Claim C3 counterexample: at a request with method "concat" where the
    Strategy A invocation fails and Strategy B produces the output, the
    response header reports "concat", the requested label, even though the
    strategy that actually produced the result is Strategy B (selected by
    the label "filter"). -/
theorem method_header_counterexample :
    (stitch_videos envFallback filesOk "concat" ⟨[], []⟩).1 = .ok respFallback ∧
    respFallback.methodUsed = "concat" ∧
    Event.toolA stagedOk outOk false ∈
      (stitch_videos envFallback filesOk "concat" ⟨[], []⟩).2.2 ∧
    Event.toolB stagedOk outOk true ∈
      (stitch_videos envFallback filesOk "concat" ⟨[], []⟩).2.2 ∧
    ("concat" : String) ≠ "filter" :=
  ⟨rfl, rfl, by decide, by decide, by decide⟩

/-- Claim C3 (amended): every successful /stitch response reports, next to
    input file count, output byte size and request identifier, the method
    that was requested in the form field; on a concat-to-filter fallback
    this stays "concat" and is not the strategy that produced the output. -/
theorem response_reports_requested_method (env : Env) (files : List UploadedFile)
    (method : String) (fs : FS) (r : Resp)
    (h : (stitch_videos env files method fs).1 = .ok r) :
    r.methodUsed = method := by
  by_cases hlt : files.length < 2
  · unfold stitch_videos at h
    rw [if_pos hlt] at h
    cases h
  · unfold stitch_videos at h
    rw [if_neg hlt] at h
    dsimp only at h
    rcases hst : (stageLoop env.tempDirName 0 files (fs.mkdir env.tempDirName)).1 with e | vp
    · simp only [hst] at h
      obtain ⟨c, hc⟩ := handlerExcept_is_error env.tempDirName e _ _
      rw [hc] at h
      cases h
    · simp only [hst] at h
      rcases hen : (stitch_videos_ffmpeg env vp (outputPathOf env) method
          (stageLoop env.tempDirName 0 files (fs.mkdir env.tempDirName)).2.1).1 with e | rp
      · simp only [hen] at h
        obtain ⟨c, hc⟩ := handlerExcept_is_error env.tempDirName e _ _
        rw [hc] at h
        cases h
      · simp only [hen] at h
        by_cases hex : (stitch_videos_ffmpeg env vp (outputPathOf env) method
            (stageLoop env.tempDirName 0 files (fs.mkdir env.tempDirName)).2.1).2.1.existsFile
              rp = true
        · rw [if_pos hex] at h
          cases h
          rfl
        · rw [if_neg hex] at h
          obtain ⟨c, hc⟩ := handlerExcept_is_error env.tempDirName _ _ _
          rw [hc] at h
          cases h

/-- Claim C3 (amended) witness at a concrete successful request. -/
theorem response_reports_requested_method_witness :
    (stitch_videos envOkA filesOk "concat" ⟨[], []⟩).1 = .ok respOkA ∧
    respOkA.methodUsed = "concat" :=
  ⟨rfl, response_reports_requested_method envOkA filesOk "concat" ⟨[], []⟩ respOkA rfl⟩

/-- Claim C4 counterexample: at a request whose first upload has a valid
    extension and whose second does not, the first upload is staged into the
    workspace (a stage event occurs) even though the request is rejected, so
    the rejection does not precede all staging. -/
theorem staging_precedes_rejection :
    (stitch_videos envOkA filesBad "concat" ⟨[], []⟩).1 =
      .error (500,
        "Error: 400: Invalid file type: b.txt. Supported: mp4, avi, mov, mkv, webm") ∧
    Event.stage "/tmp/ws/input_000_a.mp4" ∈
      (stitch_videos envOkA filesBad "concat" ⟨[], []⟩).2.2 :=
  ⟨rfl, by decide⟩

/-- Claim C4 (amended): when any uploaded filename has a non-whitelisted
    extension the request fails, the external tool is never invoked and the
    stitching engine is never called; each file is, however, validated and
    staged one at a time, so files preceding the first invalid one are
    staged before the rejection. -/
theorem invalid_ext_no_tool (env : Env) (files : List UploadedFile) (method : String)
    (fs : FS) (hbad : ∃ f ∈ files, validExt f.filename = false) :
    (∃ c, (stitch_videos env files method fs).1 = .error c) ∧
    ∀ e ∈ (stitch_videos env files method fs).2.2,
      (∀ qs q b, e ≠ Event.toolA qs q b) ∧ (∀ qs q b, e ≠ Event.toolB qs q b) ∧
      (∀ qs, e ≠ Event.invokeEngine qs) ∧ (∀ q dd, e ≠ Event.writeManifest q dd) := by
  by_cases hlt : files.length < 2
  · unfold stitch_videos
    rw [if_pos hlt]
    exact ⟨⟨_, rfl⟩, fun e he => absurd he (List.not_mem_nil e)⟩
  · obtain ⟨name, hname⟩ := stageLoop_error_of_invalid env.tempDirName files 0
      (fs.mkdir env.tempDirName) hbad
    unfold stitch_videos
    rw [if_neg hlt]
    dsimp only
    simp only [hname]
    constructor
    · obtain ⟨c, hc⟩ := handlerExcept_is_error env.tempDirName _ _ _
      exact ⟨c, hc⟩
    · intro e he
      rw [handlerExcept_trace] at he
      rcases List.mem_append.mp he with h | h
      · obtain ⟨p, hp⟩ := stageLoop_trace_stage_only env.tempDirName files 0 _ e h
        subst hp
        exact ⟨fun _ _ _ => by simp, fun _ _ _ => by simp, fun _ => by simp,
          fun _ _ => by simp⟩
      · simp only [List.mem_cons, List.not_mem_nil, or_false] at h
        subst h
        exact ⟨fun _ _ _ => by simp, fun _ _ _ => by simp, fun _ => by simp,
          fun _ _ => by simp⟩

/-- Claim C4 (amended) witness at a concrete rejected request. -/
theorem invalid_ext_no_tool_witness :
    (∃ f ∈ filesBad, validExt f.filename = false) ∧
    (∃ c, (stitch_videos envOkA filesBad "concat" ⟨[], []⟩).1 = .error c) := by
  refine ⟨⟨⟨"b.txt", [1]⟩, by decide, by decide⟩, ?_⟩
  exact (invalid_ext_no_tool envOkA filesBad "concat" ⟨[], []⟩
    ⟨⟨"b.txt", [1]⟩, by decide, by decide⟩).1

/-- Claim C6: whenever Strategy B is the strategy being run (directly for a
    non-"concat" method, or after Strategy A failed for method "concat") and
    its tool invocation exits nonzero, the engine fails carrying the tool
    error-stream text with no further tool invocation afterwards, and the
    handler surfaces this as a 500 whose body contains that diagnostic
    text. -/
theorem strategyB_failure_500 (env : Env) (files : List UploadedFile) (method : String)
    (fs : FS) (stderr : String)
    (h2 : 2 ≤ files.length)
    (hval : ∀ f ∈ files, validExt f.filename = true)
    (hB : env.toolB (stagedPaths env.tempDirName files) (outputPathOf env) = .fail stderr)
    (hA : method = "concat" →
      ∃ s, env.toolA (stagedPaths env.tempDirName files) (outputPathOf env) = .fail s) :
    (stitch_videos env files method fs).1 =
      .error (500, "Error: FFmpeg filter failed: " ++ stderr) ∧
    ∃ pre, (stitch_videos env files method fs).2.2 =
      pre ++ [Event.toolB (stagedPaths env.tempDirName files) (outputPathOf env) false,
              Event.destroyWorkspace env.tempDirName] := by
  have hlt : ¬ files.length < 2 := Nat.not_lt.mpr h2
  have hst : (stageLoop env.tempDirName 0 files (fs.mkdir env.tempDirName)).1 =
      .ok (stagedPaths env.tempDirName files) :=
    stageLoop_ok_of_valid env.tempDirName files 0 (fs.mkdir env.tempDirName) hval
  have hps : stagedPaths env.tempDirName files ≠ [] := by
    intro hnil
    have hl := stagedPathsFrom_length env.tempDirName files 0
    rw [show stagedPathsFrom env.tempDirName 0 files = stagedPaths env.tempDirName files
      from rfl, hnil] at hl
    simp only [List.length_nil] at hl
    omega
  have hmsg : "Error: " ++ ("FFmpeg filter failed: " ++ stderr) =
      "Error: FFmpeg filter failed: " ++ stderr := by
    rw [← String.append_assoc]
    rfl
  unfold stitch_videos
  rw [if_neg hlt]
  dsimp only
  simp only [hst]
  by_cases hm : method = "concat"
  · subst hm
    obtain ⟨s, hAs⟩ := hA rfl
    rw [engine_concat env _ _ _ hps, concat_demuxer_failA env _ _ _ s hAs,
        concat_filter_failB env _ _ _ stderr hB]
    dsimp only
    refine ⟨by rw [handlerExcept_fst_generic, hmsg], ?_⟩
    rw [handlerExcept_trace]
    refine ⟨(stageLoop env.tempDirName 0 files (fs.mkdir env.tempDirName)).2.2 ++
      [Event.invokeEngine (stagedPaths env.tempDirName files),
       Event.writeManifest (outputPathOf env ++ "_concat_list.txt")
         (manifestText env (stagedPaths env.tempDirName files)),
       Event.toolA (stagedPaths env.tempDirName files) (outputPathOf env) false,
       Event.removeFile (outputPathOf env ++ "_concat_list.txt")], ?_⟩
    simp
  · rw [engine_other env _ _ method _ hps hm, concat_filter_failB env _ _ _ stderr hB]
    dsimp only
    refine ⟨by rw [handlerExcept_fst_generic, hmsg], ?_⟩
    rw [handlerExcept_trace]
    refine ⟨(stageLoop env.tempDirName 0 files (fs.mkdir env.tempDirName)).2.2 ++
      [Event.invokeEngine (stagedPaths env.tempDirName files)], ?_⟩
    simp

/-- Claim C6 witness: method "filter" with a failing Strategy B invocation
    yields the 500 carrying the diagnostic text. -/
theorem strategyB_failure_500_witness :
    2 ≤ filesOk.length ∧
    (stitch_videos envBFail filesOk "filter" ⟨[], []⟩).1 =
      .error (500, "Error: FFmpeg filter failed: eB") := by
  refine ⟨by decide, ?_⟩
  exact (strategyB_failure_500 envBFail filesOk "filter" ⟨[], []⟩ "eB" (by decide)
    (by decide) rfl (fun h => absurd h (by decide))).1

/-- Claim C8: every successful /stitch response reports an output byte size
    equal to the byte length of the returned body (both read from the
    produced output file), and the trace ends with the output read followed
    by workspace destruction: the file is read fully into memory before the
    workspace is destroyed, and the response carries bytes, not a path. -/
theorem success_size_and_read_order (env : Env) (files : List UploadedFile)
    (method : String) (fs : FS) (r : Resp)
    (h : (stitch_videos env files method fs).1 = .ok r) :
    r.outputSize = toString r.content.size ∧
    ∃ pre, (stitch_videos env files method fs).2.2 =
      pre ++ [Event.readOutput (outputPathOf env),
              Event.destroyWorkspace env.tempDirName] := by
  by_cases hlt : files.length < 2
  · unfold stitch_videos at h
    rw [if_pos hlt] at h
    cases h
  · unfold stitch_videos at h ⊢
    rw [if_neg hlt] at h ⊢
    dsimp only at h ⊢
    rcases hst : (stageLoop env.tempDirName 0 files (fs.mkdir env.tempDirName)).1 with e | vp
    · simp only [hst] at h
      obtain ⟨c, hc⟩ := handlerExcept_is_error env.tempDirName e _ _
      rw [hc] at h
      cases h
    · simp only [hst] at h ⊢
      rcases hen : (stitch_videos_ffmpeg env vp (outputPathOf env) method
          (stageLoop env.tempDirName 0 files (fs.mkdir env.tempDirName)).2.1).1 with e | rp
      · simp only [hen] at h
        obtain ⟨c, hc⟩ := handlerExcept_is_error env.tempDirName e _ _
        rw [hc] at h
        cases h
      · have hrp : rp = outputPathOf env :=
          engine_ok_shape env vp (outputPathOf env) method _ rp hen
        subst hrp
        simp only [hen] at h ⊢
        by_cases hex : (stitch_videos_ffmpeg env vp (outputPathOf env) method
            (stageLoop env.tempDirName 0 files (fs.mkdir env.tempDirName)).2.1).2.1.existsFile
              (outputPathOf env) = true
        · rw [if_pos hex] at h ⊢
          cases h
          exact ⟨rfl, ⟨_, rfl⟩⟩
        · rw [if_neg hex] at h
          obtain ⟨c, hc⟩ := handlerExcept_is_error env.tempDirName _ _ _
          rw [hc] at h
          cases h

/-- Claim C8 witness at a concrete successful request. -/
theorem success_size_and_read_order_witness :
    (stitch_videos envOkA filesOk "concat" ⟨[], []⟩).1 = .ok respOkA ∧
    respOkA.outputSize = toString respOkA.content.size :=
  ⟨rfl, (success_size_and_read_order envOkA filesOk "concat" ⟨[], []⟩ respOkA rfl).1⟩

/-- Claim C10: for every request that passes the count check, any input list
    handed to the stitching engine is exactly the staged paths, one per
    uploaded file in upload order, hence non-empty; consequently no outcome
    of the handler carries the engine message for an empty input list
    ("No video paths provided"). -/
theorem engine_inputs_nonempty (env : Env) (files : List UploadedFile) (method : String)
    (fs : FS) (h2 : 2 ≤ files.length) :
    (∀ ps, Event.invokeEngine ps ∈ (stitch_videos env files method fs).2.2 →
      ps = stagedPaths env.tempDirName files ∧ ps.length = files.length ∧ ps ≠ []) ∧
    (∀ c, (stitch_videos env files method fs).1 = .error c →
      c.2 ≠ "Error: No video paths provided") := by
  have hlt : ¬ files.length < 2 := Nat.not_lt.mpr h2
  unfold stitch_videos
  rw [if_neg hlt]
  dsimp only
  rcases hst : (stageLoop env.tempDirName 0 files (fs.mkdir env.tempDirName)).1 with e | vp
  · simp only [hst]
    obtain ⟨name, rfl⟩ := stageLoop_error_shape env.tempDirName files 0
      (fs.mkdir env.tempDirName) e hst
    constructor
    · intro ps hmem
      rw [handlerExcept_trace] at hmem
      rcases List.mem_append.mp hmem with h | h
      · obtain ⟨p, hp⟩ := stageLoop_trace_stage_only env.tempDirName files 0 _ _ h
        cases hp
      · simp only [List.mem_cons, List.not_mem_nil, or_false] at h
        cases h
    · intro c hc
      rw [handlerExcept_fst_http] at hc
      cases hc
      rw [show toString (400 : Nat) ++ ": " = "400: " from by decide,
        show ("Error: No video paths provided" : String) =
          "Error: " ++ "No video paths provided" from rfl]
      exact append_head_ne "Error: " "400: " "No video paths provided" _ '4' 'N'
        ("00: " : String).data ("o video paths provided" : String).data rfl rfl (by decide)
  · simp only [hst]
    have hvp : vp = stagedPathsFrom env.tempDirName 0 files :=
      stageLoop_ok_shape env.tempDirName files 0 (fs.mkdir env.tempDirName) vp hst
    have hlen : vp.length = files.length := by
      rw [hvp]; exact stagedPathsFrom_length env.tempDirName files 0
    have hne : vp ≠ [] := by
      intro hnil
      rw [hnil] at hlen
      simp only [List.length_nil] at hlen
      omega
    have hconc : vp = stagedPaths env.tempDirName files ∧
        vp.length = files.length ∧ vp ≠ [] := ⟨hvp, hlen, hne⟩
    rcases hen : (stitch_videos_ffmpeg env vp (outputPathOf env) method
        (stageLoop env.tempDirName 0 files (fs.mkdir env.tempDirName)).2.1).1 with e | rp
    · simp only [hen]
      obtain ⟨s, rfl⟩ := engine_error_shape env vp (outputPathOf env) method _ e hne hen
      constructor
      · intro ps hmem
        rw [handlerExcept_trace] at hmem
        have := invoke_mem_shape env env.tempDirName files (fs.mkdir env.tempDirName) vp
          (outputPathOf env) method _ [Event.destroyWorkspace env.tempDirName]
          (by intro ev hev qs
              simp only [List.mem_cons, List.not_mem_nil, or_false] at hev
              subst hev
              simp) ps hmem
        rw [this]
        exact hconc
      · intro c hc
        rw [handlerExcept_fst_generic] at hc
        cases hc
        rw [show ("Error: No video paths provided" : String) =
          "Error: " ++ "No video paths provided" from rfl]
        exact append_head_ne "Error: " "FFmpeg filter failed: " "No video paths provided"
          s 'F' 'N' ("Fmpeg filter failed: " : String).data
          ("o video paths provided" : String).data rfl rfl (by decide)
    · have hrp : rp = outputPathOf env :=
        engine_ok_shape env vp (outputPathOf env) method _ rp hen
      subst hrp
      simp only [hen]
      by_cases hex : (stitch_videos_ffmpeg env vp (outputPathOf env) method
          (stageLoop env.tempDirName 0 files (fs.mkdir env.tempDirName)).2.1).2.1.existsFile
            (outputPathOf env) = true
      · rw [if_pos hex]
        constructor
        · intro ps hmem
          have := invoke_mem_shape env env.tempDirName files (fs.mkdir env.tempDirName) vp
            (outputPathOf env) method
            (stageLoop env.tempDirName 0 files (fs.mkdir env.tempDirName)).2.1
            [Event.readOutput (outputPathOf env), Event.destroyWorkspace env.tempDirName]
            (by intro ev hev qs
                simp only [List.mem_cons, List.not_mem_nil, or_false] at hev
                rcases hev with rfl | rfl <;> simp)
            ps hmem
          rw [this]
          exact hconc
        · intro c hc
          cases hc
      · rw [if_neg hex]
        constructor
        · intro ps hmem
          rw [handlerExcept_trace] at hmem
          have := invoke_mem_shape env env.tempDirName files (fs.mkdir env.tempDirName) vp
            (outputPathOf env) method _ [Event.destroyWorkspace env.tempDirName]
            (by intro ev hev qs
                simp only [List.mem_cons, List.not_mem_nil, or_false] at hev
                subst hev
                simp) ps hmem
          rw [this]
          exact hconc
        · intro c hc
          rw [handlerExcept_fst_generic] at hc
          cases hc
          rw [show ("Error: No video paths provided" : String) =
            "Error: " ++ "No video paths provided" from rfl]
          exact append_head_ne "Error: " "Output file was not created: "
            "No video paths provided" (outputPathOf env) 'O' 'N'
            ("utput file was not created: " : String).data
            ("o video paths provided" : String).data rfl rfl (by decide)

/-- Claim C10 witness: at a concrete request the engine is invoked with the
    two staged paths, and a concrete failing outcome does not carry the
    empty-input message. -/
theorem engine_inputs_nonempty_witness :
    2 ≤ filesOk.length ∧
    stagedOk = stagedPaths envOkA.tempDirName filesOk ∧
    ("Error: FFmpeg filter failed: eB" : String) ≠ "Error: No video paths provided" := by
  refine ⟨by decide, ?_, ?_⟩
  · exact ((engine_inputs_nonempty envOkA filesOk "concat" ⟨[], []⟩ (by decide)).1
      stagedOk (by decide)).1
  · exact (engine_inputs_nonempty envBFail filesOk "filter" ⟨[], []⟩ (by decide)).2
      (500, "Error: FFmpeg filter failed: eB") rfl


end VideoApi
